import Mathlib

/-!
Shallow embedding of `src/muzicode.py` (class `MusicSequencer`), a small
music sequencer built on pydub.  Audio is modelled at one sample frame per
millisecond, so a pydub `AudioSegment`'s `len` (its duration in ms) is the
list length.  The filesystem / wav decoder consumed by `load_audio_file`
is an oracle parameter `fs : String → Option AudioSegment`: `some` is a
successful decode, `none` is a missing or corrupt file (the source prints
a message and returns `None` in both cases, lines 53–62).
-/

namespace MuziCode

/-- A decoded PCM buffer: one 16-bit sample value per millisecond.
pydub's `len(segment)` (duration in milliseconds) is the list length. -/
abbrev AudioSegment := List Int

/-- pydub `AudioSegment.silent(duration=d)`: `d` milliseconds of zero
samples.  pydub computes `frames = int(frame_rate * (duration / 1000.0))`
and builds `b"\x00\x00" * frames`; a negative duration therefore yields an
empty segment (Python bytes-times-negative is empty), which `Int.toNat`
reproduces. -/
def silent (d : Int) : AudioSegment := List.replicate d.toNat 0

/-- 16-bit saturation used by pydub's overlay (`audioop.add`). -/
def clampSample (v : Int) : Int := max (-32768) (min 32767 v)

/-- pydub `seg1.overlay(seg2)` at position 0, no loop: sample-wise
saturated sum; the result keeps `seg1`'s duration, truncating `seg2` at
`seg1`'s end and leaving the remainder of `seg1` untouched when `seg2` is
shorter. -/
def overlay : AudioSegment → AudioSegment → AudioSegment
  | [], _ => []
  | base, [] => base
  | b :: bs, v :: vs => clampSample (b + v) :: overlay bs vs

/-- Python dict lookup on an association list; the most recent binding
(cons'd at the front by assignment) wins. -/
def dictLookup {α : Type} : List (String × α) → String → Option α
  | [], _ => none
  | (k, v) :: rest, key => if k = key then some v else dictLookup rest key

/-- Observable calls into the external collaborators (console error,
tempo warning, Playback Sink start, File Exporter). -/
inductive Effect where
  | errorEmptyMix : Effect
  | warnTempo (v : Int) : Effect
  | playbackStart (buf : AudioSegment) : Effect
  | exportFile (buf : AudioSegment) (filename : String) : Effect
  deriving DecidableEq

/-- The sequencer state (`MusicSequencer.__init__`, lines 9–15).
`handles` is ghost bookkeeping for the playback handles handed out by
`_play_with_simpleaudio`: one entry per handle ever started, `true` while
the handle has not been asked to stop; `current_playback` is the index of
the handle stored in `self.current_playback` (`none` initially). -/
structure MusicSequencer where
  tempo : Int
  patterns : List (String × List Int)
  melodies : List (String × List String)
  samples_dir : String
  notes_dir : String
  current_playback : Option Nat
  handles : List Bool

/-- `MusicSequencer.__init__` (lines 9–15): tempo 120, empty maps,
default directories, no playback. -/
def MusicSequencer.init : MusicSequencer :=
  { tempo := 120, patterns := [], melodies := [],
    samples_dir := "samples", notes_dir := "notes",
    current_playback := none, handles := [] }

/-- `stop_playback` (lines 17–20): if a playback handle is held, ask it
to stop.  The handle reference itself is not cleared by the source, so
`current_playback` keeps pointing at the (now stopped) handle. -/
def stop_playback (s : MusicSequencer) : MusicSequencer :=
  match s.current_playback with
  | some i => { s with handles := s.handles.set i false }
  | none => s

/-- `set_tempo` (lines 46–51): commit values in [20, 300]; otherwise keep
the previous tempo and print a warning (the message text mentions a
default of 120 but the code never resets the tempo). -/
def set_tempo (s : MusicSequencer) (new_tempo : Int) :
    MusicSequencer × List Effect :=
  if 20 ≤ new_tempo ∧ new_tempo ≤ 300 then
    ({ s with tempo := new_tempo }, [])
  else
    (s, [Effect.warnTempo new_tempo])

/-- `load_audio_file` (lines 53–62): existence check, wav decode, any
failure becomes `None`.  The filesystem and decoder are the oracle
`fs`. -/
def load_audio_file (fs : String → Option AudioSegment)
    (file_path : String) : Option AudioSegment :=
  fs file_path

/-- One loop iteration of `create_pattern_sound` (lines 118–122): the
flag is compared against the literal 1 (`if val == 1`), so exactly the
flag value 1 appends the hit sample plus padding
`beat_ms - len(hit_sound)`; every other value takes the `else` branch and
appends a rest of `beat_ms` of silence. -/
def patternSlot (hit_sound : AudioSegment) (beat_ms : Int) (val : Int) :
    AudioSegment :=
  if val = 1 then hit_sound ++ silent (beat_ms - (hit_sound.length : Int))
  else silent beat_ms

/-- `create_pattern_sound` (lines 109–124).  The single sample named
after the pattern is loaded once up front; `if not hit_sound: return
None` rejects both a failed load and a zero-length (falsy) segment.  A
name missing from `self.patterns` would be a `KeyError` in Python; it is
modelled as no output and is unreachable from the mix loop, which checks
membership first. -/
def create_pattern_sound (fs : String → Option AudioSegment)
    (s : MusicSequencer) (name : String) (beat_ms : Int) :
    Option AudioSegment :=
  match dictLookup s.patterns name with
  | none => none
  | some pattern =>
    match load_audio_file fs (s.samples_dir ++ "/" ++ name ++ ".wav") with
    | none => none
    | some hit_sound =>
      if hit_sound.length = 0 then none
      else
        some (List.foldl
          (fun sound val => sound ++ patternSlot hit_sound beat_ms val)
          [] pattern)

/-- One loop iteration of `create_melody_sound` (lines 130–135): the
note's sample is loaded for this slot; a truthy segment appends sample
plus padding `beat_ms - len(note_audio)`, a failed load or a zero-length
(falsy) segment appends a rest of `beat_ms`. -/
def melodySlot (fs : String → Option AudioSegment) (s : MusicSequencer)
    (beat_ms : Int) (note : String) : AudioSegment :=
  match load_audio_file fs (s.notes_dir ++ "/" ++ note ++ ".wav") with
  | some note_audio =>
    if note_audio.length = 0 then silent beat_ms
    else note_audio ++ silent (beat_ms - (note_audio.length : Int))
  | none => silent beat_ms

/-- `create_melody_sound` (lines 126–137): per-slot loading, always
returns a segment.  A name missing from `self.melodies` would be a
`KeyError`; modelled as no output, unreachable from the mix loop. -/
def create_melody_sound (fs : String → Option AudioSegment)
    (s : MusicSequencer) (name : String) (beat_ms : Int) :
    Option AudioSegment :=
  match dictLookup s.melodies name with
  | none => none
  | some notes =>
    some (List.foldl
      (fun sound note => sound ++ melodySlot fs s beat_ms note)
      [] notes)

/-- `beat_ms = 60000 // self.tempo` (lines 70 and 92).  Python `//` is
floor division, `Int.fdiv`. -/
def beat_duration_ms (tempo : Int) : Int := Int.fdiv 60000 tempo

/-- One iteration of the mixing loop (lines 73–82 / 95–104): resolve the
name against patterns first, then melodies, else skip; a truthy rendered
sound (`if sound:`, i.e. not `None` and nonzero length) is overlaid onto
the running measure. -/
def mixStep (fs : String → Option AudioSegment) (s : MusicSequencer)
    (beat_ms : Int) (final : AudioSegment) (name : String) : AudioSegment :=
  let sound : Option AudioSegment :=
    if (dictLookup s.patterns name).isSome then
      create_pattern_sound fs s name beat_ms
    else if (dictLookup s.melodies name).isSome then
      create_melody_sound fs s name beat_ms
    else none
  match sound with
  | some snd => if snd.length = 0 then final else overlay final snd
  | none => final

/-- The mixing section shared verbatim by `mix_and_play` (lines 70–82)
and `mix_and_save` (lines 92–104): beat length from the current tempo, a
silent 4-beat measure, then the overlay loop. -/
def mixBuffer (fs : String → Option AudioSegment) (s : MusicSequencer)
    (items : List String) : AudioSegment :=
  let beat_ms : Int := beat_duration_ms s.tempo
  List.foldl (mixStep fs s beat_ms) (silent (beat_ms * 4)) items

/-- `mix_and_play` (lines 64–88).  An empty item list is reported as an
error before any buffer is allocated and the method returns with the
state untouched.  Otherwise the measure is mixed, the previous playback
(if any) is stopped, and a new handle is started and recorded.  The
`loop` parameter of the source is a no-op stub and is omitted. -/
def mix_and_play (fs : String → Option AudioSegment) (s : MusicSequencer)
    (items : List String) : MusicSequencer × List Effect :=
  if items.isEmpty then
    (s, [Effect.errorEmptyMix])
  else
    let final := mixBuffer fs s items
    let s1 := stop_playback s
    ({ s1 with handles := s1.handles ++ [true],
               current_playback := some s1.handles.length },
     [Effect.playbackStart final])

/-- `mix_and_save` (lines 90–107).  Note: the source performs no
empty-items check here; the measure is always allocated and exported. -/
def mix_and_save (fs : String → Option AudioSegment) (s : MusicSequencer)
    (items : List String) (filename : String) :
    MusicSequencer × List Effect :=
  let final := mixBuffer fs s items
  (s, [Effect.exportFile final filename])

/-- `self.patterns[name] = vals` (parse_line, line 33): dict
insert/overwrite, modelled by shadowing at the front. -/
def define_pattern (s : MusicSequencer) (name : String)
    (vals : List Int) : MusicSequencer :=
  { s with patterns := (name, vals) :: s.patterns }

/-- `self.melodies[name] = notes` (parse_line, line 37). -/
def define_melody (s : MusicSequencer) (name : String)
    (notes : List String) : MusicSequencer :=
  { s with melodies := (name, notes) :: s.melodies }

/-- The public commands of the sequencer facade (the command interface
produced by the line parser). -/
inductive Cmd where
  | setTempo (v : Int) : Cmd
  | definePattern (name : String) (flags : List Int) : Cmd
  | defineMelody (name : String) (notes : List String) : Cmd
  | mixPlay (fs : String → Option AudioSegment) (items : List String) : Cmd
  | mixSave (fs : String → Option AudioSegment) (items : List String)
      (filename : String) : Cmd
  | stopCmd : Cmd

/-- State transition of one command. -/
def step (s : MusicSequencer) : Cmd → MusicSequencer
  | Cmd.setTempo v => (set_tempo s v).1
  | Cmd.definePattern n f => define_pattern s n f
  | Cmd.defineMelody n m => define_melody s n m
  | Cmd.mixPlay fs items => (mix_and_play fs s items).1
  | Cmd.mixSave fs items f => (mix_and_save fs s items f).1
  | Cmd.stopCmd => stop_playback s

/-- Run a command sequence from the initial state: the reachable states
of one sequencer session. -/
def run (cmds : List Cmd) : MusicSequencer :=
  List.foldl step MusicSequencer.init cmds

/-! ## Helper lemmas -/

/-- Appending one slot per element (the renderers' accumulation loops)
is the concatenation of the per-element slots, in order. -/
theorem foldl_append_slots {α : Type} (f : α → AudioSegment) (l : List α)
    (acc : AudioSegment) :
    List.foldl (fun sound x => sound ++ f x) acc l
      = acc ++ (l.map f).flatten := by
  induction l generalizing acc with
  | nil => simp
  | cons x xs ih => simp [ih, List.append_assoc]

/-- Overlay keeps the base buffer's duration. -/
theorem overlay_length (a b : AudioSegment) :
    (overlay a b).length = a.length := by
  induction a generalizing b with
  | nil => cases b <;> rfl
  | cons x xs ih => cases b with
    | nil => rfl
    | cons v vs => simp [overlay, ih]

/-- Past the overlaid source's end, the base buffer is untouched. -/
theorem overlay_getElem_past (a b : AudioSegment) (i : Nat)
    (hb : b.length ≤ i) : (overlay a b)[i]? = a[i]? := by
  induction a generalizing b i with
  | nil => cases b <;> rfl
  | cons x xs ih => cases b with
    | nil => rfl
    | cons v vs =>
      cases i with
      | zero => simp at hb
      | succ n =>
        simp only [overlay, List.getElem?_cons_succ]
        exact ih vs n (by simpa using hb)

/-- Within the overlaid source, samples are the saturated sums. -/
theorem overlay_getElem_within (a b : AudioSegment) (i : Nat)
    (x y : Int) (ha : a[i]? = some x) (hb : b[i]? = some y) :
    (overlay a b)[i]? = some (clampSample (x + y)) := by
  induction a generalizing b i with
  | nil => simp at ha
  | cons c cs ih => cases b with
    | nil => simp at hb
    | cons v vs =>
      cases i with
      | zero =>
        simp only [List.getElem?_cons_zero, Option.some_inj] at ha hb
        simp [overlay, ha, hb]
      | succ n =>
        simp only [overlay, List.getElem?_cons_succ]
        exact ih vs n (by simpa using ha) (by simpa using hb)

/-- Each iteration of the mixing loop keeps the measure's duration. -/
theorem mixStep_length (fs : String → Option AudioSegment)
    (s : MusicSequencer) (beat_ms : Int) (final : AudioSegment)
    (name : String) :
    (mixStep fs s beat_ms final name).length = final.length := by
  unfold mixStep
  cases h : (if (dictLookup s.patterns name).isSome then
      create_pattern_sound fs s name beat_ms
    else if (dictLookup s.melodies name).isSome then
      create_melody_sound fs s name beat_ms
    else none) with
  | none => simp
  | some snd =>
    by_cases hz : snd.length = 0 <;> simp [hz, overlay_length]

/-- The whole mixing loop keeps the measure's duration. -/
theorem mixFold_length (fs : String → Option AudioSegment)
    (s : MusicSequencer) (beat_ms : Int) (items : List String)
    (acc : AudioSegment) :
    (List.foldl (mixStep fs s beat_ms) acc items).length = acc.length := by
  induction items generalizing acc with
  | nil => rfl
  | cons x xs ih => simp [List.foldl_cons, ih, mixStep_length]

/-- The mixed measure always has duration `4 × beat_ms`. -/
theorem mixBuffer_length (fs : String → Option AudioSegment)
    (s : MusicSequencer) (items : List String) :
    (mixBuffer fs s items).length
      = (beat_duration_ms s.tempo * 4).toNat := by
  unfold mixBuffer
  rw [mixFold_length]
  simp [silent]

/-- Summing a constant over a list multiplies it by the length. -/
theorem sum_map_const {α : Type} (f : α → Nat) (l : List α) (c : Nat)
    (h : ∀ x ∈ l, f x = c) : (l.map f).sum = l.length * c := by
  induction l with
  | nil => simp
  | cons x xs ih =>
    simp only [List.map_cons, List.sum_cons, List.length_cons]
    rw [h x (by simp), ih (fun y hy => h y (by simp [hy]))]
    ring

/-- A melody beat-slot lasts exactly one beat whenever the note's sample
(if it loads at all) is no longer than the beat. -/
theorem melodySlot_length (fs : String → Option AudioSegment)
    (s : MusicSequencer) (beat_ms : Int) (note : String)
    (hb : 0 ≤ beat_ms)
    (hload : ∀ a : AudioSegment,
      fs (s.notes_dir ++ "/" ++ note ++ ".wav") = some a →
      (a.length : Int) ≤ beat_ms) :
    (melodySlot fs s beat_ms note).length = beat_ms.toNat := by
  unfold melodySlot load_audio_file
  cases hfs : fs (s.notes_dir ++ "/" ++ note ++ ".wav") with
  | none => simp [silent]
  | some a =>
    have ha := hload a hfs
    by_cases hz : a.length = 0
    · simp [hz, silent]
    · simp only [hz, if_false, List.length_append, silent,
        List.length_replicate]
      omega

/-! ## Claim theorems -/

/-- C1 (counterexample): `mix_and_save` performs no empty-items check:
called with an empty list it still allocates the 4-beat measure (2000 ms
of silence at the initial tempo 120) and invokes the File Exporter on
it, contradicting the claim that no buffer is produced and the exporter
is not invoked. -/
theorem mix_and_save_empty_invokes_exporter :
    (mix_and_save (fun _ => none) MusicSequencer.init [] "out.wav").2
      = [Effect.exportFile (List.replicate 2000 0) "out.wav"] := by
  rfl

/-- C1 (amended): `mix_and_play` with an empty item list reports the
empty-request error and returns with the state untouched — no measure is
allocated and the Playback Sink is not invoked; `mix_and_save`, however,
has no such check: it allocates the silent 4-beat measure and invokes the
File Exporter on it even for an empty list. -/
theorem empty_mix_request (fs : String → Option AudioSegment)
    (s : MusicSequencer) (filename : String) :
    mix_and_play fs s [] = (s, [Effect.errorEmptyMix]) ∧
    mix_and_save fs s [] filename
      = (s, [Effect.exportFile
          (silent (beat_duration_ms s.tempo * 4)) filename]) := by
  exact ⟨rfl, rfl⟩

/-- C2: `set_tempo` commits any value in [20, 300] and otherwise leaves
the tempo exactly as it was (it is not reset to 120) while reporting a
warning naming the rejected value. -/
theorem set_tempo_range (s : MusicSequencer) (v : Int) :
    ((20 ≤ v ∧ v ≤ 300) → set_tempo s v = ({ s with tempo := v }, [])) ∧
    (¬(20 ≤ v ∧ v ≤ 300) →
      (set_tempo s v).1.tempo = s.tempo ∧
      (set_tempo s v).2 = [Effect.warnTempo v]) := by
  constructor
  · intro h; simp [set_tempo, h]
  · intro h; simp [set_tempo, h]

/-- C2 (witness): the boundary values behave as stated — 20 and 300 are
committed, 19 and 301 are rejected keeping the initial tempo 120 with a
warning. -/
theorem set_tempo_range_witness :
    (set_tempo MusicSequencer.init 20).1.tempo = 20 ∧
    (set_tempo MusicSequencer.init 300).1.tempo = 300 ∧
    ((set_tempo MusicSequencer.init 19).1.tempo = 120 ∧
      (set_tempo MusicSequencer.init 19).2 = [Effect.warnTempo 19]) ∧
    ((set_tempo MusicSequencer.init 301).1.tempo = 120 ∧
      (set_tempo MusicSequencer.init 301).2 = [Effect.warnTempo 301]) := by
  refine ⟨?_, ?_, ?_, ?_⟩
  · rw [(set_tempo_range MusicSequencer.init 20).1 (by decide)]
  · rw [(set_tempo_range MusicSequencer.init 300).1 (by decide)]
  · exact (set_tempo_range MusicSequencer.init 19).2 (by decide)
  · exact (set_tempo_range MusicSequencer.init 301).2 (by decide)

/-- C4: `create_melody_sound` loads each note's asset per-slot and
appends the slots in order; a slot whose load fails contributes silence
of exactly `beat_ms` while the other slots are untouched, and when every
successfully loaded sample is no longer than one beat the rendered track
lasts exactly `n × beat_ms` for `n` notes. -/
theorem melody_render_slots (fs : String → Option AudioSegment)
    (s : MusicSequencer) (name : String) (beat_ms : Int)
    (notes : List String)
    (hm : dictLookup s.melodies name = some notes)
    (hb : 0 ≤ beat_ms)
    (hload : ∀ note ∈ notes, ∀ a : AudioSegment,
        fs (s.notes_dir ++ "/" ++ note ++ ".wav") = some a →
        (a.length : Int) ≤ beat_ms) :
    create_melody_sound fs s name beat_ms
      = some ((notes.map (melodySlot fs s beat_ms)).flatten) ∧
    (∀ note, fs (s.notes_dir ++ "/" ++ note ++ ".wav") = none →
        melodySlot fs s beat_ms note = silent beat_ms) ∧
    (∀ buf, create_melody_sound fs s name beat_ms = some buf →
        (buf.length : Int) = notes.length * beat_ms) := by
  have hrender : create_melody_sound fs s name beat_ms
      = some ((notes.map (melodySlot fs s beat_ms)).flatten) := by
    unfold create_melody_sound
    rw [hm]
    simp [foldl_append_slots]
  refine ⟨hrender, ?_, ?_⟩
  · intro note hfs
    simp [melodySlot, load_audio_file, hfs]
  · intro buf hbuf
    rw [hrender] at hbuf
    cases hbuf
    rw [List.length_flatten, List.map_map,
      sum_map_const (List.length ∘ melodySlot fs s beat_ms) notes
        beat_ms.toNat
        (fun note hnote => melodySlot_length fs s beat_ms note hb
          (fun a ha => hload note hnote a ha))]
    push_cast [Int.toNat_of_nonneg hb]
    ring

/-- C4 (witness): the melody `[C4, D4, E4]` with `D4` missing renders to
three slots; the middle slot is entirely silent and the track is
`3 × 500` ms long. -/
theorem melody_render_slots_witness :
    (create_melody_sound
        (fun p => if p = "notes/C4.wav" then some [5, 6]
          else if p = "notes/E4.wav" then some [8] else none)
        { MusicSequencer.init with melodies := [("lead", ["C4", "D4", "E4"])] }
        "lead" 500
      = some ((List.map
          (melodySlot
            (fun p => if p = "notes/C4.wav" then some [5, 6]
              else if p = "notes/E4.wav" then some [8] else none)
            { MusicSequencer.init with
                melodies := [("lead", ["C4", "D4", "E4"])] } 500)
          ["C4", "D4", "E4"]).flatten)) ∧
    melodySlot
        (fun p => if p = "notes/C4.wav" then some [5, 6]
          else if p = "notes/E4.wav" then some [8] else none)
        { MusicSequencer.init with melodies := [("lead", ["C4", "D4", "E4"])] }
        500 "D4" = silent 500 ∧
    (∀ buf, create_melody_sound
        (fun p => if p = "notes/C4.wav" then some [5, 6]
          else if p = "notes/E4.wav" then some [8] else none)
        { MusicSequencer.init with melodies := [("lead", ["C4", "D4", "E4"])] }
        "lead" 500 = some buf → (buf.length : Int) = 3 * 500) := by
  have h := melody_render_slots
    (fun p => if p = "notes/C4.wav" then some [5, 6]
      else if p = "notes/E4.wav" then some [8] else none)
    { MusicSequencer.init with melodies := [("lead", ["C4", "D4", "E4"])] }
    "lead" 500 ["C4", "D4", "E4"] rfl (by decide) ?_
  · refine ⟨h.1, h.2.1 "D4" rfl, fun buf hbuf => by simpa using h.2.2 buf hbuf⟩
  · intro note hnote a ha
    simp only [List.mem_cons, List.not_mem_nil, or_false] at hnote
    rcases hnote with h | h | h <;> subst h
    · have ha2 : (some [5, 6] : Option AudioSegment) = some a := ha
      cases ha2
      decide
    · have ha2 : (none : Option AudioSegment) = some a := ha
      cases ha2
    · have ha2 : (some [8] : Option AudioSegment) = some a := ha
      cases ha2
      decide

/-- C5: when the pattern's single named sound asset fails to load,
`create_pattern_sound` returns no output at all, whatever the pattern's
flags are — no rest silence is emitted either. -/
theorem pattern_load_failure_voids_render
    (fs : String → Option AudioSegment) (s : MusicSequencer)
    (name : String) (beat_ms : Int)
    (h : fs (s.samples_dir ++ "/" ++ name ++ ".wav") = none) :
    create_pattern_sound fs s name beat_ms = none := by
  unfold create_pattern_sound load_audio_file
  cases hp : dictLookup s.patterns name <;> simp [h]

/-- C3 (counterexample): the source compares each flag against the
literal 1 (`if val == 1`, line 119), so the nonzero flag value 2 takes
the `else` branch: the pattern `[2]` renders to one rest of pure silence
(`beat_ms = 500` zero samples), not to the hit slot
`[9000] ++ silence(499)` the claim requires. -/
theorem pattern_flag_two_renders_rest :
    create_pattern_sound
        (fun p => if p = "samples/drums.wav" then some [9000] else none)
        { MusicSequencer.init with patterns := [("drums", [2])] }
        "drums" 500
      = some (List.replicate 500 0) ∧
    create_pattern_sound
        (fun p => if p = "samples/drums.wav" then some [9000] else none)
        { MusicSequencer.init with patterns := [("drums", [2])] }
        "drums" 500
      ≠ some (patternSlot [9000] 500 1) := by
  exact ⟨rfl, by decide⟩

/-- C3 (amended): for a pattern whose sound asset loads successfully
(and is truthy), the renderer appends one beat-slot per flag in order;
a flag equal to the literal 1 appends the hit sample followed by silence
padding `beat_ms − duration(sample)`, and every other flag value —
zero or nonzero, e.g. 2 — appends a rest of exactly `beat_ms` of
silence. -/
theorem pattern_render_slots (fs : String → Option AudioSegment)
    (s : MusicSequencer) (name : String) (beat_ms : Int)
    (pattern : List Int) (hit_sound : AudioSegment)
    (hp : dictLookup s.patterns name = some pattern)
    (hl : fs (s.samples_dir ++ "/" ++ name ++ ".wav") = some hit_sound)
    (hn : hit_sound.length ≠ 0) :
    create_pattern_sound fs s name beat_ms
      = some ((pattern.map (patternSlot hit_sound beat_ms)).flatten) ∧
    patternSlot hit_sound beat_ms 1
      = hit_sound ++ silent (beat_ms - (hit_sound.length : Int)) ∧
    (∀ val : Int, val ≠ 1 →
      patternSlot hit_sound beat_ms val = silent beat_ms) := by
  refine ⟨?_, rfl, ?_⟩
  · unfold create_pattern_sound load_audio_file
    rw [hp, hl]
    simp [hn, foldl_append_slots]
  · intro val hv
    simp [patternSlot, hv]

/-- C3 amended (witness): a kick pattern `[1, 0, 2]` with a loaded
one-sample hit renders to the three slots hit, rest, rest. -/
theorem pattern_render_slots_witness :
    create_pattern_sound
        (fun p => if p = "samples/kick.wav" then some [7] else none)
        { MusicSequencer.init with patterns := [("kick", [1, 0, 2])] }
        "kick" 500
      = some ((List.map (patternSlot [7] 500) [1, 0, 2]).flatten) :=
  (pattern_render_slots
    (fun p => if p = "samples/kick.wav" then some [7] else none)
    { MusicSequencer.init with patterns := [("kick", [1, 0, 2])] }
    "kick" 500 [1, 0, 2] [7] rfl rfl (by decide)).1

/-- C5 (witness): a pattern with both hits and rests renders to nothing
when its sample is missing. -/
theorem pattern_load_failure_voids_render_witness :
    create_pattern_sound (fun _ => none)
      { MusicSequencer.init with patterns := [("drums", [0, 1, 0, 1])] }
      "drums" 500 = none :=
  pattern_load_failure_voids_render (fun _ => none)
    { MusicSequencer.init with patterns := [("drums", [0, 1, 0, 1])] }
    "drums" 500 rfl

/-- C6: every mix produces a measure of duration exactly
`4 × beat_ms` — the Measure Buffer is allocated as that much silence and
overlaying never changes its duration; an overlaid track is summed
sample-wise with saturation at offset 0, truncated at the measure
boundary when longer, and leaves the remainder untouched when
shorter. -/
theorem mix_measure_semantics (fs : String → Option AudioSegment)
    (s : MusicSequencer) (items : List String) (filename : String)
    (hne : items ≠ []) :
    (mixBuffer fs s items).length
      = (beat_duration_ms s.tempo * 4).toNat ∧
    (mix_and_play fs s items).2
      = [Effect.playbackStart (mixBuffer fs s items)] ∧
    (mix_and_save fs s items filename).2
      = [Effect.exportFile (mixBuffer fs s items) filename] ∧
    (∀ a b : AudioSegment, (overlay a b).length = a.length) ∧
    (∀ (a b : AudioSegment) (i : Nat), b.length ≤ i →
        (overlay a b)[i]? = a[i]?) ∧
    (∀ (a b : AudioSegment) (i : Nat) (x y : Int),
        a[i]? = some x → b[i]? = some y →
        (overlay a b)[i]? = some (clampSample (x + y))) := by
  refine ⟨mixBuffer_length fs s items, ?_, rfl, overlay_length,
    overlay_getElem_past, overlay_getElem_within⟩
  cases items with
  | nil => exact absurd rfl hne
  | cons x xs => rfl

/-- C6 (witness): a non-empty mix against the initial state (tempo 120,
one unresolved name) yields a measure of 4 × 500 = 2000 ms. -/
theorem mix_measure_semantics_witness :
    (mixBuffer (fun _ => none) MusicSequencer.init ["a"]).length
      = (beat_duration_ms MusicSequencer.init.tempo * 4).toNat ∧
    (mix_and_play (fun _ => none) MusicSequencer.init ["a"]).2
      = [Effect.playbackStart
          (mixBuffer (fun _ => none) MusicSequencer.init ["a"])] ∧
    (beat_duration_ms MusicSequencer.init.tempo * 4).toNat = 2000 := by
  have h := mix_measure_semantics (fun _ => none) MusicSequencer.init
    ["a"] "out.wav" (by decide)
  exact ⟨h.1, h.2.1, by decide⟩

/-- C7: the beat duration used by a mix is `60000 // tempo` in integer
floor division (120 → 500, 90 → 666), and it is recomputed from the
current tempo on each mix invocation: after `set_tempo` commits any
in-range `t`, the next mix builds its measure and slots from
`60000 // t`. -/
theorem beat_duration_fresh (fs : String → Option AudioSegment)
    (s : MusicSequencer) (t : Int) (items : List String)
    (h1 : 20 ≤ t) (h2 : t ≤ 300) :
    beat_duration_ms t = Int.fdiv 60000 t ∧
    beat_duration_ms 120 = 500 ∧
    beat_duration_ms 90 = 666 ∧
    mixBuffer fs (set_tempo s t).1 items
      = List.foldl (mixStep fs (set_tempo s t).1 (Int.fdiv 60000 t))
          (silent (Int.fdiv 60000 t * 4)) items := by
  refine ⟨rfl, by decide, by decide, ?_⟩
  have hs : (set_tempo s t).1 = { s with tempo := t } := by
    simp [set_tempo, h1, h2]
  rw [hs]
  rfl

/-- C7 (witness): setting the tempo to 90 makes the next mix use a beat
of 60000 // 90 = 666 ms. -/
theorem beat_duration_fresh_witness :
    beat_duration_ms 90 = 666 ∧
    mixBuffer (fun _ => none) (set_tempo MusicSequencer.init 90).1 ["x"]
      = List.foldl
          (mixStep (fun _ => none) (set_tempo MusicSequencer.init 90).1
            (Int.fdiv 60000 90))
          (silent (Int.fdiv 60000 90 * 4)) ["x"] := by
  have h := beat_duration_fresh (fun _ => none) MusicSequencer.init 90
    ["x"] (by decide) (by decide)
  exact ⟨h.2.2.1, h.2.2.2⟩

/-- C8: when a hit or note sample lasts longer than one beat, the
padding `beat_ms − duration(sample)` is negative, pydub's `silent`
renders it as an empty segment (clamped to zero), and the slot is
exactly the sample — it spans the sample's full duration rather than
`beat_ms`. -/
theorem long_sample_slot (fs : String → Option AudioSegment)
    (s : MusicSequencer) (hit_sound : AudioSegment) (beat_ms : Int)
    (note : String)
    (hlong : beat_ms < (hit_sound.length : Int)) :
    silent (beat_ms - (hit_sound.length : Int)) = [] ∧
    patternSlot hit_sound beat_ms 1 = hit_sound ∧
    (fs (s.notes_dir ++ "/" ++ note ++ ".wav") = some hit_sound →
      melodySlot fs s beat_ms note = hit_sound) := by
  have hsil : silent (beat_ms - (hit_sound.length : Int)) = [] := by
    simp [silent, Int.toNat_of_nonpos (by omega : beat_ms - (hit_sound.length : Int) ≤ 0)]
  refine ⟨hsil, ?_, ?_⟩
  · simp [patternSlot, hsil]
  · intro hfs
    unfold melodySlot load_audio_file
    rw [hfs]
    by_cases hz : hit_sound.length = 0
    · have hnil : hit_sound = [] := List.length_eq_zero.mp hz
      have hneg : beat_ms ≤ 0 := by omega
      simp [hz, hnil, silent, Int.toNat_of_nonpos hneg]
    · simp [hz, hsil]

/-- C8 (witness): a three-sample hit against a two-millisecond beat
yields a slot that is exactly the sample. -/
theorem long_sample_slot_witness :
    silent (2 - (([3, 4, 5] : AudioSegment).length : Int)) = [] ∧
    patternSlot [3, 4, 5] 2 1 = [3, 4, 5] ∧
    melodySlot (fun _ => some [3, 4, 5]) MusicSequencer.init 2 "n"
      = [3, 4, 5] := by
  have h := long_sample_slot (fun _ => some [3, 4, 5])
    MusicSequencer.init [3, 4, 5] 2 "n" (by decide)
  exact ⟨h.1, h.2.1, h.2.2 rfl⟩

/-- Stopping playback never touches the tempo. -/
theorem stop_playback_tempo (s : MusicSequencer) :
    (stop_playback s).tempo = s.tempo := by
  unfold stop_playback
  cases s.current_playback <;> rfl

/-- Mixing and playing never touches the tempo. -/
theorem mix_and_play_tempo (fs : String → Option AudioSegment)
    (s : MusicSequencer) (items : List String) :
    (mix_and_play fs s items).1.tempo = s.tempo := by
  unfold mix_and_play
  cases items with
  | nil => rfl
  | cons x xs => simp [stop_playback_tempo]

/-- Every command keeps the tempo within [20, 300]. -/
theorem step_tempo_range (s : MusicSequencer) (c : Cmd)
    (h1 : 20 ≤ s.tempo) (h2 : s.tempo ≤ 300) :
    20 ≤ (step s c).tempo ∧ (step s c).tempo ≤ 300 := by
  cases c with
  | setTempo v =>
    by_cases hv : 20 ≤ v ∧ v ≤ 300
    · simp only [step, set_tempo, hv, if_true]
      exact hv
    · simp only [step, set_tempo, hv, if_false]
      exact ⟨h1, h2⟩
  | definePattern n f => exact ⟨h1, h2⟩
  | defineMelody n m => exact ⟨h1, h2⟩
  | mixPlay fs items =>
    simp only [step, mix_and_play_tempo]
    exact ⟨h1, h2⟩
  | mixSave fs items f => exact ⟨h1, h2⟩
  | stopCmd =>
    simp only [step, stop_playback_tempo]
    exact ⟨h1, h2⟩

/-- The tempo range is invariant along any command sequence. -/
theorem foldl_tempo_range (cmds : List Cmd) (s : MusicSequencer)
    (h1 : 20 ≤ s.tempo) (h2 : s.tempo ≤ 300) :
    20 ≤ (List.foldl step s cmds).tempo ∧
    (List.foldl step s cmds).tempo ≤ 300 := by
  induction cmds generalizing s with
  | nil => exact ⟨h1, h2⟩
  | cons c cs ih =>
    have h := step_tempo_range s c h1 h2
    exact ih (step s c) h.1 h.2

/-- For an in-range tempo, the beat duration lies in [200, 3000]. -/
theorem beat_duration_bounds (t : Int) (h1 : 20 ≤ t) (h2 : t ≤ 300) :
    200 ≤ beat_duration_ms t ∧ beat_duration_ms t ≤ 3000 := by
  unfold beat_duration_ms
  rw [Int.fdiv_eq_ediv 60000 (by omega : (0 : Int) ≤ t)]
  constructor
  · rw [Int.le_ediv_iff_mul_le (by omega : (0 : Int) < t)]
    omega
  · have hlt : (60000 : Int) / t < 3001 := by
      rw [Int.ediv_lt_iff_lt_mul (by omega : (0 : Int) < t)]
      omega
    omega

/-- C10: in every reachable sequencer state the tempo lies in [20, 300]
(it starts at 120 and `set_tempo` only commits in-range values), so the
beat-duration division always has a positive divisor and its result lies
in [200, 3000]. -/
theorem tempo_reachable_invariant (cmds : List Cmd) :
    MusicSequencer.init.tempo = 120 ∧
    20 ≤ (run cmds).tempo ∧ (run cmds).tempo ≤ 300 ∧
    0 < (run cmds).tempo ∧
    200 ≤ beat_duration_ms (run cmds).tempo ∧
    beat_duration_ms (run cmds).tempo ≤ 3000 := by
  have h := foldl_tempo_range cmds MusicSequencer.init
    (by decide) (by decide)
  have hb := beat_duration_bounds _ h.1 h.2
  exact ⟨rfl, h.1, h.2, lt_of_lt_of_le (by norm_num) h.1, hb.1, hb.2⟩

/-- Ghost invariant on the playback bookkeeping: any handle still
active is the one recorded in `current_playback`. -/
def PlaybackInv (s : MusicSequencer) : Prop :=
  ∀ i : Nat, s.handles[i]? = some true → s.current_playback = some i

/-- After `stop_playback`, no handle at all is left active. -/
theorem stop_playback_no_active (s : MusicSequencer) (h : PlaybackInv s)
    (i : Nat) : (stop_playback s).handles[i]? ≠ some true := by
  unfold stop_playback
  cases hc : s.current_playback with
  | none =>
    intro hi
    have := h i hi
    rw [hc] at this
    exact Option.noConfusion this
  | some c =>
    intro hi
    have hi2 : (s.handles.set c false)[i]? = some true := hi
    rw [List.getElem?_set] at hi2
    by_cases hci : c = i
    · subst hci
      by_cases hlt : c < s.handles.length
      · rw [if_pos rfl, if_pos hlt] at hi2; cases hi2
      · rw [if_pos rfl, if_neg hlt] at hi2; cases hi2
    · rw [if_neg hci] at hi2
      have := h i hi2
      rw [hc] at this
      exact hci (Option.some.inj this)

/-- Stopping preserves the invariant (vacuously: nothing stays
active). -/
theorem playbackInv_stop (s : MusicSequencer) (h : PlaybackInv s) :
    PlaybackInv (stop_playback s) :=
  fun i hi => absurd hi (stop_playback_no_active s h i)

/-- A play invocation preserves the invariant: the previous handle is
stopped first and only the newly recorded handle is active. -/
theorem playbackInv_mix_and_play (fs : String → Option AudioSegment)
    (s : MusicSequencer) (items : List String) (h : PlaybackInv s) :
    PlaybackInv (mix_and_play fs s items).1 := by
  cases items with
  | nil => exact h
  | cons x xs =>
    intro j hj
    have hj2 : ((stop_playback s).handles ++ [true])[j]? = some true := hj
    show some ((stop_playback s).handles.length) = some j
    rcases Nat.lt_trichotomy j (stop_playback s).handles.length with
      hlt | heq | hgt
    · rw [List.getElem?_append_left hlt] at hj2
      exact absurd hj2 (stop_playback_no_active s h j)
    · rw [heq]
    · rw [List.getElem?_append_right (le_of_lt hgt)] at hj2
      have hd : j - (stop_playback s).handles.length
          = (j - (stop_playback s).handles.length - 1) + 1 := by omega
      rw [hd, List.getElem?_cons_succ, List.getElem?_nil] at hj2
      cases hj2

/-- Transporting the invariant along states with the same playback
fields. -/
theorem playbackInv_congr (s s' : MusicSequencer)
    (hh : s'.handles = s.handles)
    (hc : s'.current_playback = s.current_playback)
    (h : PlaybackInv s) : PlaybackInv s' := by
  intro i hi
  rw [hc]
  exact h i (by rw [← hh]; exact hi)

/-- Every command preserves the playback invariant. -/
theorem playbackInv_step (s : MusicSequencer) (c : Cmd)
    (h : PlaybackInv s) : PlaybackInv (step s c) := by
  cases c with
  | setTempo v =>
    have hfields : (set_tempo s v).1.handles = s.handles ∧
        (set_tempo s v).1.current_playback = s.current_playback := by
      unfold set_tempo
      split <;> exact ⟨rfl, rfl⟩
    exact playbackInv_congr s _ hfields.1 hfields.2 h
  | definePattern n f => exact playbackInv_congr s _ rfl rfl h
  | defineMelody n m => exact playbackInv_congr s _ rfl rfl h
  | mixPlay fs items => exact playbackInv_mix_and_play fs s items h
  | mixSave fs items f => exact playbackInv_congr s _ rfl rfl h
  | stopCmd => exact playbackInv_stop s h

/-- The playback invariant holds in every reachable state. -/
theorem playbackInv_run (cmds : List Cmd) : PlaybackInv (run cmds) := by
  have gen : ∀ (cs : List Cmd) (s : MusicSequencer), PlaybackInv s →
      PlaybackInv (List.foldl step s cs) := by
    intro cs
    induction cs with
    | nil => exact fun s hs => hs
    | cons c cs2 ih =>
      exact fun s hs => ih (step s c) (playbackInv_step s c hs)
  exact gen cmds MusicSequencer.init (fun i hi => Option.noConfusion hi)

/-- C9: in every reachable state at most one playback handle is active
(any two active indices coincide); `stop_playback` is idempotent, in
particular a no-op when nothing is playing; and a non-empty play stops
the previously recorded handle before recording the new one. -/
theorem single_active_playback (cmds : List Cmd) :
    (∀ i j : Nat, (run cmds).handles[i]? = some true →
        (run cmds).handles[j]? = some true → i = j) ∧
    (∀ s : MusicSequencer,
        stop_playback (stop_playback s) = stop_playback s) ∧
    (∀ (fs : String → Option AudioSegment) (s : MusicSequencer)
        (items : List String) (i : Nat), items ≠ [] →
        s.current_playback = some i → i < s.handles.length →
        (mix_and_play fs s items).1.handles[i]? = some false) := by
  refine ⟨?_, ?_, ?_⟩
  · intro i j hi hj
    have h := playbackInv_run cmds
    have h1 := h i hi
    have h2 := h j hj
    rw [h1] at h2
    exact Option.some.inj h2
  · intro s
    obtain ⟨t, p, m, sd, nd, cp, hs⟩ := s
    cases cp with
    | none => rfl
    | some c =>
      show (⟨t, p, m, sd, nd, some c,
          (hs.set c false).set c false⟩ : MusicSequencer)
        = ⟨t, p, m, sd, nd, some c, hs.set c false⟩
      rw [List.set_set]
  · intro fs s items i hne hc hlt
    cases items with
    | nil => exact absurd rfl hne
    | cons x xs =>
      have hstop : (stop_playback s).handles = s.handles.set i false := by
        unfold stop_playback
        rw [hc]
      show ((stop_playback s).handles ++ [true])[i]? = some false
      rw [hstop,
        List.getElem?_append_left
          (by rw [List.length_set]; exact hlt),
        List.getElem?_set, if_pos rfl, if_pos hlt]

/-- C9 (witness): after one play there is one active handle at index 0;
a second play marks it stopped before recording handle 1. -/
theorem single_active_playback_witness :
    (run [Cmd.mixPlay (fun _ => none) ["a"]]).handles[0]? = some true ∧
    (mix_and_play (fun _ => none)
        (run [Cmd.mixPlay (fun _ => none) ["a"]])
        ["b"]).1.handles[0]? = some false := by
  refine ⟨by decide, ?_⟩
  exact (single_active_playback [Cmd.mixPlay (fun _ => none) ["a"]]).2.2
    (fun _ => none) (run [Cmd.mixPlay (fun _ => none) ["a"]]) ["b"] 0
    (by decide) (by decide) (by decide)

end MuziCode
